import Mathlib

/-!
Verification of the scrape/search pipeline in src/blog-search.py.

The Python program is shallowly embedded as follows:
* a Python string is a `List Char` of Unicode code points (`Str`);
* the Couchbase default collection is an association list `Store` keyed by
  URL, with `getDoc` modelling `collection.get` and `upsertStore` modelling
  `collection.upsert`;
* the external collaborators (Selenium renderer, Azure OpenAI embeddings,
  Couchbase connectivity) are oracles collected in an `Env` record: a `none`
  or `true` result of an oracle stands for the corresponding Python call
  raising an exception;
* a Python exception that escapes a function is an `Option`/`Except` failure
  value or the `RunResult.aborted` constructor;
* `urllib.parse.urljoin` is modelled after the Python 3.11 implementation
  for the shape of base URL the program builds on line 43 (`scheme://netloc`
  with empty path, params, query and fragment): input normalisation, scheme
  detection with default, netloc/query/fragment/params splitting, the
  `uses_relative`/`uses_netloc`/`uses_params` scheme lists, dot-segment
  resolution with empty-segment filtering, and reassembly by `urlunparse`;
  only the `ValueError` branches for malformed bracketed hosts are outside
  the model;
* floats are modelled as exact rationals, with the Python builtin
  `round(x, 2)` modelled by half-even rounding to two decimal places.
-/

namespace BlogSearch

/-- A Python string: the list of its Unicode code points. -/
abbrev Str := List Char

/-- Lowercasing, modelling Python `str.lower()` (ASCII-faithful). -/
def lowerStr (s : Str) : Str := s.map Char.toLower

/-- The document written by `store_embedding` (blog-search.py lines 128-133). -/
structure Doc where
  type : Str
  url : Str
  title : Str
  embedding : List ℚ
deriving DecidableEq

/-- The default collection of the Couchbase bucket, as an association list
keyed by document id (the URL). -/
abbrev Store := List (Str × Doc)

/-- Model of `collection.get(key)`: the first record stored under `key`, if any.
`none` models `DocumentNotFoundException`. -/
def getDoc : Store → Str → Option Doc
  | [], _ => none
  | (k, d) :: rest, u => if k = u then some d else getDoc rest u

/-- Model of `collection.upsert(key, doc)`: replace the record at `key`, or append a
new one. -/
def upsertStore (k : Str) (d : Doc) : Store → Store
  | [] => [(k, d)]
  | (k', d') :: rest =>
    if k' = k then (k, d) :: rest else (k', d') :: upsertStore k d rest

/-- Model of `store_embedding(url, title, embedding)` (blog-search.py lines 127-134):
build the blog-post document and upsert it keyed by the URL. -/
def store_embedding (url title : Str) (embedding : List ℚ) (st : Store) : Store :=
  upsertStore url
    { type := "blog_post".toList, url := url, title := title, embedding := embedding } st

/-- External failure oracles for one scrape/search run.  `renderResult = none`
models the Selenium renderer raising; `getFails url = true` models
`collection.get(url)` raising an exception other than
`DocumentNotFoundException`; `embedResult title = none` models the embedding
call raising; `upsertFails url = true` models `collection.upsert` raising. -/
structure Env where
  renderResult : Option (List (Str × Str))
  getFails : Str → Bool
  embedResult : Str → Option (List ℚ)
  upsertFails : Str → Bool

/-- Model of `document_exists(url)` (blog-search.py lines 119-124): `collection.get`
in a `try` that maps `DocumentNotFoundException` to `False` and a present
document to `True`; any other exception of the lookup propagates
(`Except.error ()`). -/
def document_exists (env : Env) (st : Store) (url : Str) : Except Unit Bool :=
  if env.getFails url then Except.error ()
  else Except.ok (getDoc st url).isSome

/-- The characters Python `urllib.parse` accepts inside a URL scheme. -/
def isSchemeChar (c : Char) : Bool :=
  c.isAlpha || c.isDigit || c = '+' || c = '-' || c = '.'

/-- Scheme detection of `urllib.parse.urlsplit`: an initial run of scheme
characters starting with a letter, terminated by a colon.  Returns the
lowercased scheme and the remainder after the colon. -/
def splitScheme (url : Str) : Option (Str × Str) :=
  match url.dropWhile (fun c => c ≠ ':') with
  | ':' :: rest =>
    match url.takeWhile (fun c => c ≠ ':') with
    | [] => none
    | c :: cs =>
      if c.isAlpha ∧ (c :: cs).all isSchemeChar then
        some ((c :: cs).map Char.toLower, rest)
      else none
  | _ => none

/-- The `uses_relative` scheme list of Python 3.11 `urllib.parse`. -/
def usesRelative : List Str :=
  ["".toList, "ftp".toList, "http".toList, "gopher".toList, "nntp".toList,
   "imap".toList, "wais".toList, "file".toList, "https".toList, "shttp".toList,
   "mms".toList, "prospero".toList, "rtsp".toList, "rtsps".toList,
   "rtspu".toList, "sftp".toList, "svn".toList, "svn+ssh".toList,
   "ws".toList, "wss".toList]

/-- The `uses_netloc` scheme list of Python 3.11 `urllib.parse`. -/
def usesNetloc : List Str :=
  ["".toList, "ftp".toList, "http".toList, "gopher".toList, "nntp".toList,
   "telnet".toList, "imap".toList, "wais".toList, "file".toList, "mms".toList,
   "https".toList, "shttp".toList, "snews".toList, "prospero".toList,
   "rtsp".toList, "rtsps".toList, "rtspu".toList, "rsync".toList,
   "svn".toList, "svn+ssh".toList, "sftp".toList, "nfs".toList,
   "git".toList, "git+ssh".toList, "ws".toList, "wss".toList]

/-- The `uses_params` scheme list of Python 3.11 `urllib.parse`. -/
def usesParams : List Str :=
  ["".toList, "ftp".toList, "hdl".toList, "prospero".toList, "http".toList,
   "imap".toList, "https".toList, "shttp".toList, "rtsp".toList,
   "rtsps".toList, "rtspu".toList, "sip".toList, "sips".toList,
   "mms".toList, "sftp".toList, "tel".toList]

/-- Model of `BASE_URL` (blog-search.py line 43): the string
`f"{PARSED.scheme}://{PARSED.netloc}"` for the configured iframe URL.
The model takes the parsed scheme (lowercased, non-empty for any real
configuration) and authority as parameters. -/
def baseURL (bscheme bnetloc : Str) : Str :=
  bscheme ++ "://".toList ++ bnetloc

/-- The input normalisation of `urlsplit`: strip leading C0-control or
space characters, then remove every tab, carriage return and line feed. -/
def cleanUrl (s : Str) : Str :=
  (s.dropWhile (fun c => decide (c.val ≤ 32))).filter
    (fun c => decide (c.val ≠ 9 ∧ c.val ≠ 13 ∧ c.val ≠ 10))

/-- The delimiters ending the netloc in `_splitnetloc`. -/
def isNetlocEnd (c : Char) : Bool :=
  c = '/' || c = '?' || c = '#'

/-- The result of `urlparse`: scheme, netloc, path, params, query and
fragment; an absent component is the empty string, exactly as in Python. -/
structure UrlParts where
  scheme : Str
  netloc : Str
  path : Str
  params : Str
  query : Str
  fragment : Str

/-- Model of `_splitparams`: split `;params` off the last path segment
(off the whole path when it has no slash); called only when the path
contains a semicolon. -/
def splitParams (path : Str) : Str × Str :=
  if '/' ∈ path then
    let lastSeg := (path.reverse.takeWhile (fun c => c ≠ '/')).reverse
    let pre := (path.reverse.dropWhile (fun c => c ≠ '/')).reverse
    if ';' ∈ lastSeg then
      (pre ++ lastSeg.takeWhile (fun c => c ≠ ';'),
       (lastSeg.dropWhile (fun c => c ≠ ';')).drop 1)
    else (path, [])
  else
    (path.takeWhile (fun c => c ≠ ';'),
     (path.dropWhile (fun c => c ≠ ';')).drop 1)

/-- After scheme and netloc are removed, `urlsplit` splits the fragment at
the first `#`, then the query at the first `?` of what precedes it, and
`urlparse` finally splits `;params` when the scheme uses them. -/
def parseRest (sch netloc pathqf : Str) : UrlParts :=
  let pre := pathqf.takeWhile (fun c => c ≠ '#')
  let frag := (pathqf.dropWhile (fun c => c ≠ '#')).drop 1
  let path0 := pre.takeWhile (fun c => c ≠ '?')
  let query := (pre.dropWhile (fun c => c ≠ '?')).drop 1
  if sch ∈ usesParams ∧ ';' ∈ path0 then
    ⟨sch, netloc, (splitParams path0).1, (splitParams path0).2, query, frag⟩
  else ⟨sch, netloc, path0, [], query, frag⟩

/-- The part of `urlsplit` after scheme detection: a `//` prefix starts the
netloc, which runs to the first `/`, `?` or `#`. -/
def parseAfterScheme (sch rest : Str) : UrlParts :=
  if "//".toList <+: rest then
    parseRest sch ((rest.drop 2).takeWhile (fun c => !isNetlocEnd c))
      ((rest.drop 2).dropWhile (fun c => !isNetlocEnd c))
  else parseRest sch [] rest

/-- Model of `urlparse(url, bscheme)` as `urljoin` calls it: normalise the
input, detect the scheme (defaulting to the base scheme), then split
netloc, path, params, query and fragment.  The `ValueError` branches for
malformed bracketed hosts are not modelled: a reference raising there makes
the enclosing `try` of `fetch_blog_links` return the empty list. -/
def urlparseWith (bscheme url : Str) : UrlParts :=
  match splitScheme (cleanUrl url) with
  | some (sch, rest) => parseAfterScheme sch rest
  | none => parseAfterScheme bscheme (cleanUrl url)

/-- Model of `url = "%s;%s" % (url, params)` in `urlunparse`. -/
def joinParams (path params : Str) : Str :=
  if params = [] then path else path ++ ';' :: params

/-- The netloc step of `urlunsplit` (Python 3.11): prepend `//netloc` when
the netloc is non-empty, or when the scheme uses a netloc and the url does
not already start with `//`; a non-empty url not starting with `/` first
gets one. -/
def addNetloc (scheme netloc url0 : Str) : Str :=
  if netloc ≠ [] ∨ (scheme ≠ [] ∧ scheme ∈ usesNetloc ∧ ¬ ("//".toList <+: url0)) then
    "//".toList ++ netloc ++
      (if url0 ≠ [] ∧ ¬ ("/".toList <+: url0) then '/' :: url0 else url0)
  else url0

/-- The scheme step of `urlunsplit`: prefix `scheme:` when non-empty. -/
def addScheme (scheme url1 : Str) : Str :=
  if scheme ≠ [] then scheme ++ ':' :: url1 else url1

/-- The query step of `urlunsplit`: append `?query` when non-empty. -/
def addQuery (url2 query : Str) : Str :=
  if query ≠ [] then url2 ++ '?' :: query else url2

/-- The fragment step of `urlunsplit`: append `#fragment` when non-empty. -/
def addFragment (url3 fragment : Str) : Str :=
  if fragment ≠ [] then url3 ++ '#' :: fragment else url3

/-- Model of `urlunparse` composed with `urlunsplit` (Python 3.11). -/
def urlunparse (scheme netloc path params query fragment : Str) : Str :=
  addFragment (addQuery (addScheme scheme (addNetloc scheme netloc
    (joinParams path params))) query) fragment

/-- Python `str.split(sep)` for a one-character separator. -/
def splitOnChar (ch : Char) : Str → List Str
  | [] => [[]]
  | c :: rest =>
    match splitOnChar ch rest with
    | [] => if c = ch then [[], []] else [[c]]
    | s :: ss => if c = ch then [] :: s :: ss else (c :: s) :: ss

/-- Drop empty segments from a list, keeping its last element. -/
def filterTail : List Str → List Str
  | [] => []
  | [a] => [a]
  | a :: rest => if a = [] then filterTail rest else a :: filterTail rest

/-- The `segments[1:-1] = filter(None, segments[1:-1])` step of `urljoin`:
drop empty segments, keeping the first and last elements. -/
def filterMiddle : List Str → List Str
  | [] => []
  | [a] => [a]
  | a :: rest => a :: filterTail rest

/-- The dot-segment loop of `urljoin`: `..` pops (ignoring underflow),
`.` is skipped, anything else is appended. -/
def resolveSegments (segs : List Str) : List Str :=
  segs.foldl
    (fun acc seg =>
      if seg = "..".toList then acc.dropLast
      else if seg = ".".toList then acc
      else acc ++ [seg]) []

/-- The path-merging part of `urljoin` for the base path `""` of
`BASE_URL`: a rooted reference keeps its own segments, an unrooted one is
appended to the base parts `[""]` with interior empty segments dropped;
dot segments are then resolved, a trailing slash is restored after a final
`.` or `..`, and an empty join becomes `/`. -/
def resolvePath (path : Str) : Str :=
  let segments :=
    if "/".toList <+: path then splitOnChar '/' path
    else filterMiddle ([] :: splitOnChar '/' path)
  let res := resolveSegments segments
  let res2 :=
    if segments.getLast? = some ".".toList ∨ segments.getLast? = some "..".toList
    then res ++ [[]] else res
  let joined := List.intercalate "/".toList res2
  if joined = [] then "/".toList else joined

/-- The tail of `urljoin` once the netloc is settled, for the base path
`""` of `BASE_URL`: an empty path-and-params reference keeps the (empty)
base path, base params and, when its own query is empty, the (empty) base
query; anything else goes through path merging. -/
def mergeBase (sch netloc path params query fragment : Str) : Str :=
  if path = [] ∧ params = [] then urlunparse sch netloc [] [] query fragment
  else urlunparse sch netloc (resolvePath path) params query fragment

/-- The body of `urljoin` after parsing, for the base
`bscheme://bnetloc` (base path, params, query and fragment all empty): a
different scheme or one outside `uses_relative` returns the reference
unchanged; a `uses_netloc` scheme with a non-empty reference netloc
reassembles the reference as is; otherwise the base netloc is adopted and
the rest is merged against the base. -/
def urljoinParsed (bscheme bnetloc url : Str) (p : UrlParts) : Str :=
  if p.scheme = bscheme ∧ p.scheme ∈ usesRelative then
    if p.scheme ∈ usesNetloc ∧ p.netloc ≠ [] then
      urlunparse p.scheme p.netloc p.path p.params p.query p.fragment
    else
      mergeBase p.scheme (if p.scheme ∈ usesNetloc then bnetloc else p.netloc)
        p.path p.params p.query p.fragment
  else url

/-- Model of `urllib.parse.urljoin(BASE_URL, url)` (Python 3.11) for the
base of line 43, whose path, params, query and fragment are all empty. -/
def urljoin (bscheme bnetloc url : Str) : Str :=
  if url = [] then baseURL bscheme bnetloc
  else urljoinParsed bscheme bnetloc url (urlparseWith bscheme url)

/-- Lines 94-98 of blog-search.py: an href already starting with
`http://` or `https://` is kept; anything else is resolved with `urljoin`
against `BASE_URL`. -/
def resolveHref (bscheme bnetloc href : Str) : Str :=
  if "http://".toList <+: href ∨ "https://".toList <+: href then href
  else urljoin bscheme bnetloc href

/-- Line 101 of blog-search.py: the blog-post heuristic on the resolved URL:
the lowercased URL contains `"blog"` and one of `"post"`, `"entry"`,
`"article"`. -/
def isBlogPostURL (full : Str) : Prop :=
  "blog".toList <:+: lowerStr full ∧
  ("post".toList <:+: lowerStr full ∨ "entry".toList <:+: lowerStr full ∨
   "article".toList <:+: lowerStr full)

instance (full : Str) : Decidable (isBlogPostURL full) := by
  unfold isBlogPostURL
  infer_instance

/-- The per-anchor body of the loop at lines 82-103 of blog-search.py:
skip anchors with missing href or title, titles shorter than five
characters, and fragment or javascript hrefs; resolve the href; emit the
pair when the blog-post heuristic accepts the resolved URL. -/
def includeAnchor (bscheme bnetloc href title : Str) : Option (Str × Str) :=
  if href = [] ∨ title = [] then none
  else if title.length < 5 then none
  else if "#".toList <+: href ∨ "javascript:".toList <+: href then none
  else if isBlogPostURL (resolveHref bscheme bnetloc href) then
    some (resolveHref bscheme bnetloc href, title)
  else none

/-- The anchor loop of `fetch_blog_links` (lines 82-105): classify every
anchor of the rendered page in document order. -/
def classifyAnchors (bscheme bnetloc : Str) (anchors : List (Str × Str)) :
    List (Str × Str) :=
  anchors.filterMap fun p => includeAnchor bscheme bnetloc p.1 p.2

/-- Model of `fetch_blog_links()` (lines 59-108): render the page and classify its
anchors.  The whole body is wrapped in `try/except Exception`, so a renderer
failure is caught and the function returns the empty list (line 108). -/
def fetch_blog_links (env : Env) (bscheme bnetloc : Str) : List (Str × Str) :=
  match env.renderResult with
  | none => []
  | some anchors => classifyAnchors bscheme bnetloc anchors

/-- Terminal state of one link in the scrape loop. -/
inductive Outcome where
  | Stored
  | Skipped
  | Failed
deriving DecidableEq

/-- Result of one scrape run: `ok` with the per-item outcomes when the loop
finishes, `aborted` when an uncaught exception escapes the loop. -/
inductive RunResult where
  | ok (outcomes : List Outcome)
  | aborted
deriving DecidableEq

/-- The body of the loop at lines 142-153 of blog-search.py for one link:
call `document_exists`; on a propagating lookup failure the exception
escapes the loop (`none`); on `True` skip; on `False` embed and store inside
a `try` whose `except` marks the item failed and continues. -/
def runItem (env : Env) (st : Store) (url title : Str) : Option (Outcome × Store) :=
  match document_exists env st url with
  | Except.error _ => none
  | Except.ok true => some (Outcome.Skipped, st)
  | Except.ok false =>
    match env.embedResult title with
    | none => some (Outcome.Failed, st)
    | some vec =>
      if env.upsertFails url then some (Outcome.Failed, st)
      else some (Outcome.Stored, store_embedding url title vec st)

/-- The loop of `scrape_and_store` (lines 142-153) over the discovered
links, threading the store; an exception escaping one iteration aborts the
remainder of the loop but leaves the store as already written. -/
def scrapeLinks (env : Env) : List (Str × Str) → Store → RunResult × Store
  | [], st => (RunResult.ok [], st)
  | (u, t) :: rest, st =>
    match runItem env st u t with
    | none => (RunResult.aborted, st)
    | some (o, st') =>
      match scrapeLinks env rest st' with
      | (RunResult.ok os, st'') => (RunResult.ok (o :: os), st'')
      | (RunResult.aborted, st'') => (RunResult.aborted, st'')

/-- Model of `scrape_and_store()` (lines 137-153): fetch the links, then run the
dedup-gated embed-and-store loop over them. -/
def scrape_and_store (env : Env) (bscheme bnetloc : Str) (st : Store) :
    RunResult × Store :=
  scrapeLinks env (fetch_blog_links env bscheme bnetloc) st

/-- The number of per-item outcomes of a run, `none` for an aborted run. -/
def runLength : RunResult → Option Nat
  | RunResult.ok os => some os.length
  | RunResult.aborted => none

/-- An environment whose store lookups all raise a connectivity-style
exception. -/
def envLookupFailing : Env :=
  { renderResult := some [], getFails := fun _ => true,
    embedResult := fun _ => none, upsertFails := fun _ => false }

/-- Round half to even, the rounding mode of the Python builtin `round`. -/
def roundHalfEven (q : ℚ) : ℤ :=
  if q - ⌊q⌋ < 1/2 then ⌊q⌋
  else if 1/2 < q - ⌊q⌋ then ⌊q⌋ + 1
  else if ⌊q⌋ % 2 = 0 then ⌊q⌋ else ⌊q⌋ + 1

/-- Python `round(x, 2)`: x rounded half-even to two decimal places. -/
def pythonRound2 (x : ℚ) : ℚ := (roundHalfEven (x * 100) : ℚ) / 100

/-- Line 181 of blog-search.py: `round(row.score * 100, 2)`. -/
def displayScore (s : ℚ) : ℚ := pythonRound2 (s * 100)

/-- The per-row body of the result loop at lines 176-182 of
blog-search.py: join the hit id back to the store; on success report
`(title, url, displayed score)`; a failing join is caught, logged and the
row is dropped (`none`). -/
def renderSearchRow (st : Store) (rowId : Str) (rowScore : ℚ) :
    Option (Str × Str × ℚ) :=
  match getDoc st rowId with
  | some d => some (d.title, d.url, displayScore rowScore)
  | none => none

/-- The operation selected by `main()` (lines 195-207). -/
inductive CliAction where
  | runScrape
  | runSearch (q : Str)
  | showHelp
deriving DecidableEq

/-- The dispatch of `main()`: `--scrape` wins, otherwise a truthy (present
and non-empty) `--search` argument runs the search, otherwise usage help is
printed and the program returns normally (exit status zero). -/
def mainDispatch (scrapeFlag : Bool) (searchArg : Option Str) : CliAction :=
  if scrapeFlag then CliAction.runScrape
  else
    match searchArg with
    | some q => if q ≠ [] then CliAction.runSearch q else CliAction.showHelp
    | none => CliAction.showHelp

/-- Whether the selected action runs `search_blog_posts`, the only path that
embeds the query and issues a vector search. -/
def performsSearch : CliAction → Bool
  | CliAction.runSearch _ => true
  | _ => false

/-- Base scheme used by the concrete witnesses. -/
def bsW : Str := "https".toList

/-- Base network location used by the concrete witnesses. -/
def bnW : Str := "x.com".toList

/-- The resolved URL of the witness anchor. -/
def urlW : Str := "https://x.com/blog/post/42".toList

/-- The record the pipeline writes for the witness anchor. -/
def docW1 : Doc :=
  { type := "blog_post".toList, url := urlW, title := "My New Post".toList,
    embedding := [] }

/-- A store already holding the witness record. -/
def stW1 : Store := [(urlW, docW1)]

/-- A healthy environment whose page carries one classifiable anchor. -/
def envW1 : Env :=
  { renderResult := some [("/blog/post/42".toList, "My New Post".toList)],
    getFails := fun _ => false, embedResult := fun _ => some [],
    upsertFails := fun _ => false }

/-- An environment re-serving the witness anchor under a changed title. -/
def envW8 : Env :=
  { renderResult := some [("/blog/post/42".toList, "Changed Title".toList)],
    getFails := fun _ => false, embedResult := fun _ => some [1],
    upsertFails := fun _ => false }

/-- An environment whose embedding calls all fail. -/
def envW3 : Env :=
  { renderResult := some [], getFails := fun _ => false,
    embedResult := fun _ => none, upsertFails := fun _ => false }

/-- Two resolved links fed to the orchestrator loop by the witnesses. -/
def linksW3 : List (Str × Str) :=
  [("u1".toList, "Post One!".toList), ("u2".toList, "Post Two!".toList)]

/-- An environment whose renderer is down and whose other collaborators are
healthy. -/
def envRenderFail : Env :=
  { renderResult := none, getFails := fun _ => false,
    embedResult := fun _ => none, upsertFails := fun _ => false }

/-- An environment whose renderer is down and whose store is also failing:
the run never reaches the store. -/
def envRenderFail2 : Env :=
  { renderResult := none, getFails := fun _ => true,
    embedResult := fun _ => none, upsertFails := fun _ => true }

theorem getDoc_upsert_self (k : Str) (d : Doc) (st : Store) :
    getDoc (upsertStore k d st) k = some d := by
  induction st with
  | nil => simp [upsertStore, getDoc]
  | cons p rest ih =>
    obtain ⟨k', d'⟩ := p
    by_cases h : k' = k <;> simp [upsertStore, getDoc, h, ih]

theorem getDoc_upsert_ne (k u : Str) (hne : k ≠ u) (d : Doc) (st : Store) :
    getDoc (upsertStore k d st) u = getDoc st u := by
  induction st with
  | nil => simp [upsertStore, getDoc, hne]
  | cons p rest ih =>
    obtain ⟨k', d'⟩ := p
    by_cases h : k' = k
    · subst h
      simp [upsertStore, getDoc, hne]
    · simp [upsertStore, getDoc, h, ih]

/-- C6: a `(url, title, embedding)` written by `store_embedding` is recovered
unchanged by a key lookup on that url: the record found has the given title
and url, its type field is "blog_post", and it carries the given embedding. -/
theorem store_roundtrip (st : Store) (url title : Str) (embedding : List ℚ) :
    getDoc (store_embedding url title embedding st) url =
      some { type := "blog_post".toList, url := url, title := title,
             embedding := embedding } :=
  getDoc_upsert_self url _ st

/-- C4: the dedup existence check returns `ok false` exactly when the lookup
succeeds and reports not-found, returns `ok true` when the lookup finds the
document, and any other lookup failure surfaces as `Except.error`, an outcome
distinct by construction from the boolean not-found result. -/
theorem document_exists_contract (env : Env) (st : Store) (url : Str) :
    (document_exists env st url = Except.ok false ↔
      env.getFails url = false ∧ getDoc st url = none) ∧
    (env.getFails url = false → getDoc st url ≠ none →
      document_exists env st url = Except.ok true) ∧
    (env.getFails url = true → document_exists env st url = Except.error ()) := by
  unfold document_exists
  by_cases h : env.getFails url
  · simp [h]
  · simp [h, Option.isSome_iff_ne_none]

theorem document_exists_contract_witness :
    document_exists envLookupFailing [] "u".toList = Except.error () :=
  (document_exists_contract envLookupFailing [] "u".toList).2.2 rfl

/-- C2: the classifier emits an anchor if and only if its href is non-empty,
its text is non-empty and at least five characters long, the href does not
begin with `#` or the `javascript:` pseudo-protocol, and the resolved URL,
lowercased, contains `"blog"` together with one of `"post"`, `"entry"`,
`"article"`; and what it emits is exactly the resolved URL with the text. -/
theorem classifier_inclusion (bscheme bnetloc href title : Str) :
    ((∃ out, includeAnchor bscheme bnetloc href title = some out) ↔
      (href ≠ [] ∧ title ≠ [] ∧ 5 ≤ title.length ∧
       ¬ ("#".toList <+: href) ∧ ¬ ("javascript:".toList <+: href) ∧
       isBlogPostURL (resolveHref bscheme bnetloc href))) ∧
    (∀ out, includeAnchor bscheme bnetloc href title = some out →
      out = (resolveHref bscheme bnetloc href, title)) := by
  unfold includeAnchor
  split_ifs with h1 h2 h3 h4
  · refine ⟨iff_of_false ?_ ?_, ?_⟩
    · rintro ⟨out, hout⟩
      simp at hout
    · rintro ⟨hh, ht, -⟩
      rcases h1 with h | h
      · exact hh h
      · exact ht h
    · intro out hout
      simp at hout
  · refine ⟨iff_of_false ?_ ?_, ?_⟩
    · rintro ⟨out, hout⟩
      simp at hout
    · rintro ⟨-, -, hlen, -⟩
      omega
    · intro out hout
      simp at hout
  · refine ⟨iff_of_false ?_ ?_, ?_⟩
    · rintro ⟨out, hout⟩
      simp at hout
    · rintro ⟨-, -, -, hp1, hp2, -⟩
      rcases h3 with h | h
      · exact hp1 h
      · exact hp2 h
    · intro out hout
      simp at hout
  · push_neg at h1 h2 h3
    refine ⟨iff_of_true ⟨_, rfl⟩ ⟨h1.1, h1.2, ?_, h3.1, h3.2, h4⟩, ?_⟩
    · omega
    · intro out hout
      injection hout with h
      exact h.symm
  · refine ⟨iff_of_false ?_ ?_, ?_⟩
    · rintro ⟨out, hout⟩
      simp at hout
    · rintro ⟨-, -, -, -, -, hb⟩
      exact h4 hb
    · intro out hout
      simp at hout

theorem classifier_inclusion_witness :
    includeAnchor bsW bnW "/blog/post/42".toList "My New Post".toList =
      some (resolveHref bsW bnW "/blog/post/42".toList, "My New Post".toList) := by
  obtain ⟨out, hout⟩ :=
    (classifier_inclusion bsW bnW "/blog/post/42".toList "My New Post".toList).1.2
      (by decide)
  rw [hout,
    (classifier_inclusion bsW bnW "/blog/post/42".toList "My New Post".toList).2
      out hout]

/-- C7 counterexample: the href `ftp://evil.com/blog/post` is not absolute in
the sense of the code (it does not start with `http://` or `https://`), yet
the classifier emits it with a resolved URL that is the href unchanged, not
anchored at the base origin `https://x.com`. -/
theorem nonhttp_scheme_not_anchored :
    includeAnchor "https".toList "x.com".toList
        "ftp://evil.com/blog/post".toList "My New Post".toList =
      some ("ftp://evil.com/blog/post".toList, "My New Post".toList) ∧
    ¬ ("http://".toList <+: "ftp://evil.com/blog/post".toList ∨
       "https://".toList <+: "ftp://evil.com/blog/post".toList) ∧
    resolveHref "https".toList "x.com".toList "ftp://evil.com/blog/post".toList =
      "ftp://evil.com/blog/post".toList ∧
    ¬ (baseURL "https".toList "x.com".toList <+:
        resolveHref "https".toList "x.com".toList
          "ftp://evil.com/blog/post".toList) := by
  decide

theorem addQuery_prefix {x url2 : Str} (h : x <+: url2) (query : Str) :
    x <+: addQuery url2 query := by
  unfold addQuery
  split_ifs
  · exact h.trans (List.prefix_append _ _)
  · exact h

theorem addFragment_prefix {x url3 : Str} (h : x <+: url3) (fragment : Str) :
    x <+: addFragment url3 fragment := by
  unfold addFragment
  split_ifs
  · exact h.trans (List.prefix_append _ _)
  · exact h

theorem base_prefix_colon (bscheme bnetloc u : Str) :
    baseURL bscheme bnetloc <+: bscheme ++ ':' :: ("//".toList ++ bnetloc ++ u) := by
  refine ⟨u, ?_⟩
  have hsep : "://".toList = ':' :: "//".toList := rfl
  rw [baseURL, hsep]
  simp [List.append_assoc]

theorem urlunparse_prefix (bscheme bnetloc : Str) (hs : bscheme ≠ [])
    (hn : bnetloc ≠ []) (path params query fragment : Str) :
    baseURL bscheme bnetloc <+:
      urlunparse bscheme bnetloc path params query fragment := by
  unfold urlunparse
  apply addFragment_prefix
  apply addQuery_prefix
  unfold addScheme addNetloc
  rw [if_pos (Or.inl hn), if_pos hs]
  exact base_prefix_colon bscheme bnetloc _

/-- C7 (amended): for every href that is not already absolute in the sense
of the code, whose parse carries no scheme of its own (or exactly the base
scheme) and an empty authority component (every href not beginning with
`//`, and also degenerate `///`-style references), with the base URL of the
configured page carrying a non-empty scheme in `uses_relative` and
`uses_netloc` (http and https are in both) and a non-empty host, the
resolved output of the classifier is an absolute URL anchored at the base
origin `scheme://netloc`.  Hrefs bearing a different scheme are returned
unchanged and protocol-relative hrefs with a non-empty host keep that host,
so those need not be anchored at the base origin. -/
theorem relative_href_anchored (bscheme bnetloc href : Str)
    (habs : ¬ ("http://".toList <+: href ∨ "https://".toList <+: href))
    (hsch : (urlparseWith bscheme href).scheme = bscheme)
    (hnet : (urlparseWith bscheme href).netloc = [])
    (hs : bscheme ≠ [])
    (hn : bnetloc ≠ [])
    (hrel : bscheme ∈ usesRelative)
    (hloc : bscheme ∈ usesNetloc) :
    baseURL bscheme bnetloc <+: resolveHref bscheme bnetloc href := by
  unfold resolveHref
  rw [if_neg habs]
  unfold urljoin
  by_cases he : href = []
  · rw [if_pos he]
  · rw [if_neg he]
    unfold urljoinParsed
    rw [hsch, hnet]
    rw [if_pos ⟨rfl, hrel⟩]
    rw [if_neg (fun hcon => hcon.2 rfl)]
    rw [if_pos hloc]
    unfold mergeBase
    split_ifs
    · exact urlunparse_prefix bscheme bnetloc hs hn [] [] _ _
    · exact urlunparse_prefix bscheme bnetloc hs hn _ _ _ _

theorem relative_href_anchored_witness :
    baseURL bsW bnW <+: resolveHref bsW bnW "/blog/post/42".toList :=
  relative_href_anchored bsW bnW "/blog/post/42".toList
    (by decide) (by decide) (by decide) (by decide) (by decide) (by decide)
    (by decide)

theorem runItem_eq (env : Env) (st : Store) (url title : Str) :
    runItem env st url title =
      if env.getFails url then none
      else if (getDoc st url).isSome then some (Outcome.Skipped, st)
      else
        match env.embedResult title with
        | none => some (Outcome.Failed, st)
        | some vec =>
          if env.upsertFails url then some (Outcome.Failed, st)
          else some (Outcome.Stored, store_embedding url title vec st) := by
  unfold runItem document_exists
  by_cases h : env.getFails url
  · simp [h]
  · cases hb : (getDoc st url).isSome <;> simp [h, hb]

theorem runItem_some_getFails {env : Env} {st : Store} {url title : Str}
    {pr : Outcome × Store} (h : runItem env st url title = some pr) :
    env.getFails url = false := by
  cases hgf : env.getFails url
  · rfl
  · rw [runItem_eq, hgf] at h
    simp at h

theorem runItem_of_present {env : Env} {st : Store} {url : Str} (title : Str)
    (hg : env.getFails url = false) (hs : (getDoc st url).isSome = true) :
    runItem env st url title = some (Outcome.Skipped, st) := by
  rw [runItem_eq, hg, hs]
  simp

theorem runItem_preserves {env : Env} {st st' : Store} {u' t' : Str}
    {o : Outcome} {u : Str} {d : Doc} (hd : getDoc st u = some d)
    (h : runItem env st u' t' = some (o, st')) : getDoc st' u = some d := by
  rw [runItem_eq] at h
  by_cases hg : env.getFails u'
  · simp [hg] at h
  · by_cases hs : (getDoc st u').isSome
    · simp [hg, hs] at h
      exact h.2 ▸ hd
    · cases he : env.embedResult t' with
      | none =>
        simp [hg, hs, he] at h
        exact h.2 ▸ hd
      | some vec =>
        by_cases hu : env.upsertFails u'
        · simp [hg, hs, he, hu] at h
          exact h.2 ▸ hd
        · simp [hg, hs, he, hu] at h
          have hne : u' ≠ u := by
            intro heq
            rw [heq, hd] at hs
            simp at hs
          rw [← h.2]
          unfold store_embedding
          rw [getDoc_upsert_ne u' u hne]
          exact hd

theorem runItem_terminal_present {env : Env} {st st' : Store} {url title : Str}
    {o : Outcome} (h : runItem env st url title = some (o, st'))
    (ht : o = Outcome.Stored ∨ o = Outcome.Skipped) :
    (getDoc st' url).isSome = true := by
  rw [runItem_eq] at h
  by_cases hg : env.getFails url
  · simp [hg] at h
  · by_cases hs : (getDoc st url).isSome
    · simp [hg, hs] at h
      rw [← h.2]
      exact hs
    · cases he : env.embedResult title with
      | none =>
        simp [hg, hs, he] at h
        obtain ⟨h1, h2⟩ := h
        rcases ht with rfl | rfl <;> cases h1
      | some vec =>
        by_cases hu : env.upsertFails url
        · simp [hg, hs, he, hu] at h
          obtain ⟨h1, h2⟩ := h
          rcases ht with rfl | rfl <;> cases h1
        · simp [hg, hs, he, hu] at h
          rw [← h.2]
          unfold store_embedding
          rw [getDoc_upsert_self]
          rfl

theorem runItem_total {env : Env} {url : Str} (st : Store) (title : Str)
    (h : env.getFails url = false) :
    ∃ o st', runItem env st url title = some (o, st') := by
  rw [runItem_eq, h]
  simp only [Bool.false_eq_true, if_false]
  by_cases hs : (getDoc st url).isSome
  · exact ⟨Outcome.Skipped, st, by simp [hs]⟩
  · cases he : env.embedResult title with
    | none => exact ⟨Outcome.Failed, st, by simp [hs, he]⟩
    | some vec =>
      by_cases hu : env.upsertFails url
      · exact ⟨Outcome.Failed, st, by simp [hs, he, hu]⟩
      · exact ⟨Outcome.Stored, store_embedding url title vec st,
          by simp [hs, he, hu]⟩

theorem scrapeLinks_preserves (env : Env) (links : List (Str × Str))
    (st : Store) (u : Str) (d : Doc) (hd : getDoc st u = some d) :
    getDoc (scrapeLinks env links st).2 u = some d := by
  induction links generalizing st with
  | nil => simpa [scrapeLinks] using hd
  | cons p rest ih =>
    obtain ⟨u', t'⟩ := p
    cases hr : runItem env st u' t' with
    | none => simpa [scrapeLinks, hr] using hd
    | some pr =>
      obtain ⟨o, st'⟩ := pr
      have hd' : getDoc st' u = some d := runItem_preserves hd hr
      have h2 := ih st' hd'
      cases hs : scrapeLinks env rest st' with
      | mk res st'' =>
        rw [hs] at h2
        cases res <;> simp [scrapeLinks, hr, hs] <;> exact h2

theorem scrapeLinks_ok_covers {env : Env} {links : List (Str × Str)}
    {st st₁ : Store} {os : List Outcome}
    (h : scrapeLinks env links st = (RunResult.ok os, st₁))
    (hterm : ∀ o ∈ os, o = Outcome.Stored ∨ o = Outcome.Skipped) :
    ∀ p ∈ links, env.getFails p.1 = false ∧ (getDoc st₁ p.1).isSome = true := by
  induction links generalizing st os with
  | nil => simp
  | cons p rest ih =>
    obtain ⟨u', t'⟩ := p
    cases hr : runItem env st u' t' with
    | none => simp [scrapeLinks, hr] at h
    | some pr =>
      obtain ⟨o, st'⟩ := pr
      cases hs : scrapeLinks env rest st' with
      | mk res st'' =>
        cases res with
        | aborted => simp [scrapeLinks, hr, hs] at h
        | ok os' =>
          simp only [scrapeLinks, hr, hs] at h
          injection h with h1 h2
          injection h1 with h1
          subst h1
          subst h2
          intro q hq
          rcases List.mem_cons.1 hq with rfl | hq'
          · refine ⟨runItem_some_getFails hr, ?_⟩
            have hpres : (getDoc st' u').isSome = true :=
              runItem_terminal_present hr (hterm o (List.mem_cons_self _ _))
            obtain ⟨d, hdd⟩ := Option.isSome_iff_exists.1 hpres
            have hp2 := scrapeLinks_preserves env rest st' u' d hdd
            rw [hs] at hp2
            exact Option.isSome_iff_exists.2 ⟨d, hp2⟩
          · exact ih hs (fun o' ho' => hterm o' (List.mem_cons_of_mem _ ho')) q hq'

theorem scrapeLinks_all_present {env : Env} {links : List (Str × Str)}
    {st : Store}
    (h : ∀ p ∈ links, env.getFails p.1 = false ∧ (getDoc st p.1).isSome = true) :
    scrapeLinks env links st =
      (RunResult.ok (links.map fun _ => Outcome.Skipped), st) := by
  induction links with
  | nil => simp [scrapeLinks]
  | cons p rest ih =>
    obtain ⟨u', t'⟩ := p
    have h1 := h (u', t') (List.mem_cons_self _ _)
    have hr : runItem env st u' t' = some (Outcome.Skipped, st) :=
      runItem_of_present t' h1.1 h1.2
    have h2 := ih (fun q hq => h q (List.mem_cons_of_mem _ hq))
    simp [scrapeLinks, hr, h2]

/-- C1: when a scrape run over the currently discoverable links completes
with every item in a terminal `Stored` or `Skipped` state, a second run of
the pipeline in the same environment (hence over the same unchanged link
set) performs no write: the store is unchanged and every item is gated out
by the dedup check into `Skipped`. -/
theorem scrape_second_run_all_skipped (env : Env) (bscheme bnetloc : Str)
    (st st₁ : Store) (os : List Outcome)
    (h1 : scrape_and_store env bscheme bnetloc st = (RunResult.ok os, st₁))
    (h2 : ∀ o ∈ os, o = Outcome.Stored ∨ o = Outcome.Skipped) :
    scrape_and_store env bscheme bnetloc st₁ =
      (RunResult.ok ((fetch_blog_links env bscheme bnetloc).map
        fun _ => Outcome.Skipped), st₁) := by
  unfold scrape_and_store at h1 ⊢
  exact scrapeLinks_all_present (scrapeLinks_ok_covers h1 h2)

theorem scrape_second_run_all_skipped_witness :
    scrape_and_store envW1 bsW bnW stW1 =
      (RunResult.ok ((fetch_blog_links envW1 bsW bnW).map
        fun _ => Outcome.Skipped), stW1) :=
  scrape_second_run_all_skipped envW1 bsW bnW [] stW1 [Outcome.Stored]
    (by decide) (by decide)

/-- C3 counterexample: a single item whose dedup lookup raises an error that
is neither success nor not-found aborts the whole batch, contradicting the
claim that such a failure never aborts the batch. -/
theorem lookup_failure_aborts_batch :
    scrapeLinks envLookupFailing [("u".toList, "Hello Post".toList)] [] =
      (RunResult.aborted, []) := by
  decide

/-- C3 (amended): when no dedup lookup fails, a per-item failure (embedding
or store write) never aborts the batch: the loop reaches every item and
reports one outcome per item.  A propagating dedup lookup failure, in
contrast, aborts the remainder of the batch. -/
theorem batch_survives_item_failures (env : Env) (links : List (Str × Str))
    (st : Store) (h : ∀ p ∈ links, env.getFails p.1 = false) :
    runLength (scrapeLinks env links st).1 = some links.length := by
  induction links generalizing st with
  | nil => simp [scrapeLinks, runLength]
  | cons p rest ih =>
    obtain ⟨u', t'⟩ := p
    obtain ⟨o, st', hr⟩ :=
      runItem_total st t' (h (u', t') (List.mem_cons_self _ _))
    have ihr := ih st' (fun q hq => h q (List.mem_cons_of_mem _ hq))
    cases hs : scrapeLinks env rest st' with
    | mk res st'' =>
      rw [hs] at ihr
      cases res with
      | aborted => simp [runLength] at ihr
      | ok os' =>
        simp only [runLength, Option.some.injEq] at ihr
        simp [scrapeLinks, hr, hs, runLength, ihr]

theorem batch_survives_item_failures_witness :
    runLength (scrapeLinks envW3 linksW3 []).1 = some linksW3.length :=
  batch_survives_item_failures envW3 linksW3 [] (by decide)

/-- C5 counterexample: with the renderer down, the scrape run does not
propagate the failure; `fetch_blog_links` swallows it and the run completes
normally with zero items and an unchanged store. -/
theorem render_failure_cex :
    scrape_and_store envRenderFail bsW bnW stW1 = (RunResult.ok [], stW1) ∧
    RunResult.ok ([] : List Outcome) ≠ RunResult.aborted := by
  decide

/-- C5 (amended): a renderer failure is caught inside `fetch_blog_links`
(broad `except` at line 106), which prints a diagnostic and returns an empty
link list, so the scrape run completes normally with no outcomes and no
writes instead of terminating the invocation with an error. -/
theorem render_failure_completes_normally (env : Env) (bscheme bnetloc : Str)
    (st : Store) (h : env.renderResult = none) :
    scrape_and_store env bscheme bnetloc st = (RunResult.ok [], st) := by
  unfold scrape_and_store fetch_blog_links
  rw [h]
  rfl

theorem render_failure_completes_normally_witness :
    scrape_and_store envRenderFail2 bsW bnW [] = (RunResult.ok [], []) :=
  render_failure_completes_normally envRenderFail2 bsW bnW [] rfl

/-- C8: a record present in the store when a scrape run starts is still
present and unchanged when the run ends, whether the run completes or
aborts: the dedup gate is by URL only, so the pipeline never overwrites,
re-embeds (even under a changed title) or deletes an existing record. -/
theorem existing_record_unchanged (env : Env) (bscheme bnetloc : Str)
    (st : Store) (u : Str) (d : Doc) (hd : getDoc st u = some d) :
    getDoc (scrape_and_store env bscheme bnetloc st).2 u = some d :=
  scrapeLinks_preserves env (fetch_blog_links env bscheme bnetloc) st u d hd

theorem existing_record_unchanged_witness :
    getDoc (scrape_and_store envW8 bsW bnW stW1).2 urlW = some docW1 :=
  existing_record_unchanged envW8 bsW bnW stW1 urlW docW1 (by decide)

theorem roundHalfEven_nonneg (q : ℚ) (h : 0 ≤ q) : 0 ≤ roundHalfEven q := by
  unfold roundHalfEven
  have hf : 0 ≤ ⌊q⌋ := Int.floor_nonneg.2 h
  split_ifs <;> omega

theorem roundHalfEven_le (q : ℚ) (m : ℤ) (h : q ≤ m) : roundHalfEven q ≤ m := by
  unfold roundHalfEven
  have hfl : ⌊q⌋ ≤ m := by
    have hm := Int.floor_mono h
    rwa [Int.floor_intCast] at hm
  split_ifs with g1 g2 g3
  · exact hfl
  · have hhalf : (1 : ℚ)/2 ≤ q - ⌊q⌋ := not_lt.1 g1
    have hlt : (⌊q⌋ : ℚ) < (m : ℚ) := by linarith
    have hlt' : ⌊q⌋ < m := by exact_mod_cast hlt
    omega
  · exact hfl
  · have hhalf : (1 : ℚ)/2 ≤ q - ⌊q⌋ := not_lt.1 g1
    have hlt : (⌊q⌋ : ℚ) < (m : ℚ) := by linarith
    have hlt' : ⌊q⌋ < m := by exact_mod_cast hlt
    omega

/-- C9 counterexample: the code does not clamp the score; a search-stage
similarity of 2 is joined successfully and displayed as 200, outside the
claimed bounded range 0 to 100. -/
theorem display_score_unbounded_cex :
    renderSearchRow stW1 urlW 2 = some (docW1.title, docW1.url, displayScore 2) ∧
    displayScore 2 = 200 ∧ ¬ (displayScore 2 ≤ 100) := by
  refine ⟨rfl, ?_, ?_⟩
  · norm_num [displayScore, pythonRound2, roundHalfEven]
  · norm_num [displayScore, pythonRound2, roundHalfEven]

/-- C9 (amended): for every search hit joined successfully back to its
stored record, the displayed score is exactly `round(s * 100, 2)` for the
similarity `s` returned by the search stage; it lies within 0 to 100
whenever `s` itself lies within 0 to 1 (the code applies no clamping, so a
similarity above 1 is displayed above 100). -/
theorem display_score_formula_and_bounds (st : Store) (rowId : Str) (s : ℚ)
    (title url : Str) (sc : ℚ)
    (hrow : renderSearchRow st rowId s = some (title, url, sc))
    (h0 : 0 ≤ s) (h1 : s ≤ 1) :
    sc = displayScore s ∧ 0 ≤ sc ∧ sc ≤ 100 := by
  have hsc : sc = displayScore s := by
    unfold renderSearchRow at hrow
    cases hg : getDoc st rowId with
    | none => rw [hg] at hrow; cases hrow
    | some d =>
      rw [hg] at hrow
      simp only [Option.some.injEq, Prod.mk.injEq] at hrow
      exact hrow.2.2.symm
  subst hsc
  refine ⟨rfl, ?_, ?_⟩
  · have hq0 : 0 ≤ s * 100 * 100 := by positivity
    have hr := roundHalfEven_nonneg (s * 100 * 100) hq0
    unfold displayScore pythonRound2
    positivity
  · have hq1 : s * 100 * 100 ≤ ((10000 : ℤ) : ℚ) := by push_cast; nlinarith
    have hr := roundHalfEven_le (s * 100 * 100) 10000 hq1
    unfold displayScore pythonRound2
    rw [div_le_iff₀ (by norm_num : (0 : ℚ) < 100)]
    calc ((roundHalfEven (s * 100 * 100) : ℤ) : ℚ)
        ≤ ((10000 : ℤ) : ℚ) := by exact_mod_cast hr
      _ = 100 * 100 := by norm_num

theorem display_score_formula_and_bounds_witness :
    displayScore (1/2) = displayScore (1/2) ∧
    0 ≤ displayScore (1/2) ∧ displayScore (1/2) ≤ 100 :=
  display_score_formula_and_bounds stW1 urlW (1/2) docW1.title docW1.url
    (displayScore (1/2)) rfl (by norm_num) (by norm_num)

/-- C10: invoking the CLI with `--search` set to the empty string and
without `--scrape` dispatches exactly as if no operation were supplied: the
empty string is falsy in the `elif args.search` test, so usage help is shown
(a normal, zero-status exit) and the search path, the only one that embeds
the query and issues a vector search, is never entered. -/
theorem empty_search_query_shows_help :
    mainDispatch false (some []) = CliAction.showHelp ∧
    mainDispatch false (some []) = mainDispatch false none ∧
    performsSearch (mainDispatch false (some [])) = false := by
  decide

end BlogSearch
